import Mathlib

set_option maxRecDepth 10000

/-!
A shallow embedding of the two analyzer scripts of this repository:
`analyze_docs.py` (the documentation classifier, class `DocAnalyzer`) and
`analyze_code_quality.py` (the quality indicator scanner, class
`CodeQualityAnalyzer`).

The Python regular expressions used by the scripts are embedded as
executable character-list matchers that reproduce the leftmost-match,
greedy / non-greedy backtracking semantics of the concrete patterns
appearing in the scripts (ASCII interpretation of the character classes
`\s` and `\w`).  Scanning loops are written with an explicit fuel
argument (always instantiated with the length of the input plus one,
which is enough because every match consumes at least one character).
-/

/-- Python `\s` (ASCII whitespace: space, tab, newline, carriage return,
vertical tab, form feed). -/
def isSpaceChar (c : Char) : Bool :=
  c == ' ' || c == '\t' || c == '\n' || c == '\r' || c == '\x0b' || c == '\x0c'

/-- Python `\w` restricted to ASCII: letters, digits, underscore. -/
def isWordChar (c : Char) : Bool :=
  c.isAlpha || c.isDigit || c == '_'

/-- First index at which the string `needle` occurs in `hay`
(`None` when it does not occur). -/
def findSub (needle : List Char) : List Char → Option Nat
  | [] => if needle.isEmpty then some 0 else none
  | c :: rest =>
    if needle.isPrefixOf (c :: rest) then some 0
    else
      match findSub needle rest with
      | some i => some (i + 1)
      | none => none

/-- Python `str.strip()` (ASCII whitespace model). -/
def trimChars (l : List Char) : List Char :=
  ((l.dropWhile isSpaceChar).reverse.dropWhile isSpaceChar).reverse

/-- Tail-recursive worker for `splitOnNl` (`cur` is the reversed
current part, `acc` the reversed finished parts). -/
def splitOnNlAux (cur : List Char) (acc : List (List Char)) :
    List Char → List (List Char)
  | [] => (cur.reverse :: acc).reverse
  | c :: r =>
    if c = '\n' then splitOnNlAux [] (cur.reverse :: acc) r
    else splitOnNlAux (c :: cur) acc r

/-- Python `str.split('\n')`: always at least one (possibly empty) part. -/
def splitOnNl (s : List Char) : List (List Char) :=
  splitOnNlAux [] [] s

/-- Tail-recursive list length (used for fuel on large inputs). -/
def listLen {α : Type} (acc : Nat) : List α → Nat
  | [] => acc
  | _ :: r => listLen (acc + 1) r

/-- Number of newline characters among the first `pos` characters:
the `line_num` computation `content[:match.start()].count('\n')`. -/
def lineNumAt (content : List Char) (pos : Nat) : Nat :=
  (content.take pos).countP (fun c => c == '\n')

/-- Candidate suffixes of `s` after consuming a run of `lo` up to
maximally many `\s` characters, in greedy (longest-first) order.
This is the backtracking candidate list of `\s*` (`lo = 0`) or
`\s+` (`lo = 1`). -/
def spaceSplits (s : List Char) (lo : Nat) : List (List Char) :=
  let m := (s.takeWhile isSpaceChar).length
  if lo > m then []
  else (List.range (m + 1 - lo)).map (fun i => s.drop (m - i))

/-- Candidate suffixes after a nonempty `\w+` run, greedy order. -/
def wordSplits (s : List Char) : List (List Char) :=
  let m := (s.takeWhile isWordChar).length
  (List.range m).map (fun i => s.drop (m - i))

/-- Like `wordSplits` but also returning the consumed word: the
backtracking candidates of the capturing group `(\w+)`. -/
def wordSplitsCap (s : List Char) : List (String × List Char) :=
  let m := (s.takeWhile isWordChar).length
  (List.range m).map (fun i => (String.mk (s.take (m - i)), s.drop (m - i)))

/-- Consume a literal word. -/
def litWord? (w : List Char) (s : List Char) : Option (List Char) :=
  if w.isPrefixOf s then some (s.drop w.length) else none

/-- Count the non-overlapping, leftmost-first occurrences of an
alternation of literal strings (the first alternative that matches at a
position wins and is skipped over), i.e. `len(pattern.findall(s))` for
a pattern that is an alternation of literals. -/
def countAlts (alts : List (List Char)) : List Char → Nat → Nat
  | _, 0 => 0
  | [], _ => 0
  | c :: rest, fuel + 1 =>
    match alts.find? (fun a => a.isPrefixOf (c :: rest)) with
    | some a => 1 + countAlts alts ((c :: rest).drop a.length) fuel
    | none => countAlts alts rest fuel

namespace DocA

/-!
### `DocAnalyzer` of `analyze_docs.py`

Regular expressions of the constructor (`analyze_docs.py`, lines 44-63):
  * `class_pattern    = ^\s*class\s+(\w+)` (MULTILINE)
  * `function_pattern = ^\s*(?:virtual\s+)?(?:static\s+)?(?:inline\s+)?`
    `(?:const\s+)?(?:\w+(?:\s*\*|\s+&|\s+))\s+(\w+)\s*\([^)]*\)\s*`
    `(?:const)?(?:\s*override)?(?:\s*final)?;?` (MULTILINE)
  * `doc_block_pattern = /\*\*.*?\*/` (DOTALL)
  * `doc_line_pattern  = ^\s*///.*$` (MULTILINE)
  * `brief_pattern     = \\brief|@brief|///<`
  * `param_pattern     = \\param|@param`
  * `return_pattern    = \\return|@return`
-/

/-- Matcher for an optional qualifier group `(?:word\s+)?`: greedily try
the qualifier (with every greedy split of its trailing `\s+`), falling
back to skipping the group, as Python's backtracking does. -/
def matchQual {α : Type} (w : List Char) (s : List Char)
    (k : List Char → Option α) : Option α :=
  (match litWord? w s with
   | some s1 => (spaceSplits s1 1).findSome? k
   | none => none)
  <|> k s

/-- Backtracking candidates of the inner alternation
`(?:\s*\*|\s+&|\s+)` of the return-type group, in pattern order. -/
def typeTail (s : List Char) : List (List Char) :=
  (match (s.drop ((s.takeWhile isSpaceChar).length)) with
   | '*' :: rest => [rest]
   | _ => []) ++
  (if (s.takeWhile isSpaceChar).length ≥ 1 then
     match (s.drop ((s.takeWhile isSpaceChar).length)) with
     | '&' :: rest => [rest]
     | _ => []
   else []) ++
  spaceSplits s 1

/-- `\s*\([^)]*\)` — deterministic: the greedy `\s*` must stop exactly at
`(`, and `[^)]*` must stop exactly at the closing `)`. -/
def parenPart? (s : List Char) : Option (List Char) :=
  match s.drop ((s.takeWhile isSpaceChar).length) with
  | '(' :: r =>
    match r.drop ((r.takeWhile (fun c => !(c == ')'))).length) with
    | ')' :: r2 => some r2
    | _ => none
  | _ => none

/-- The (always succeeding) trailing part
`\s*(?:const)?(?:\s*override)?(?:\s*final)?;?`: returns the remaining
suffix.  Each piece is deterministic: a greedy space run can only be
followed by the literal at its maximal extent, and each optional group
either consumes (its own spaces plus) its literal or nothing. -/
def fnTail (s : List Char) : List Char :=
  let s1 := s.drop ((s.takeWhile isSpaceChar).length)
  let s2 := match litWord? "const".data s1 with
            | some r => r
            | none => s1
  let s3 :=
    let sp := (s2.takeWhile isSpaceChar).length
    if "override".data.isPrefixOf (s2.drop sp) then (s2.drop sp).drop 8 else s2
  let s4 :=
    let sp := (s3.takeWhile isSpaceChar).length
    if "final".data.isPrefixOf (s3.drop sp) then (s3.drop sp).drop 5 else s3
  match s4 with
  | ';' :: r => r
  | _ => s4

/-- Attempt of `function_pattern` (without its `^` anchor) at the start
of `s`: returns the consumed length and the captured name `(\w+)`.
The chain of `findSome?` calls over greedy candidate lists reproduces
Python's ordered backtracking. -/
def matchFn? (s : List Char) : Option (Nat × String) :=
  (spaceSplits s 0).findSome? fun s1 =>
  matchQual "virtual".data s1 fun s2 =>
  matchQual "static".data s2 fun s3 =>
  matchQual "inline".data s3 fun s4 =>
  matchQual "const".data s4 fun s5 =>
  (wordSplits s5).findSome? fun s6 =>
  (typeTail s6).findSome? fun s7 =>
  (spaceSplits s7 1).findSome? fun s8 =>
  (wordSplitsCap s8).findSome? fun p =>
  match parenPart? p.2 with
  | none => none
  | some s10 => some (s.length - (fnTail s10).length, p.1)

/-- Attempt of `class_pattern` (without its `^` anchor) at the start of
`s`: `\s*class\s+(\w+)`, all pieces deterministic. -/
def matchClass? (s : List Char) : Option (Nat × String) :=
  let s1 := s.drop ((s.takeWhile isSpaceChar).length)
  match litWord? "class".data s1 with
  | none => none
  | some s2 =>
    let sp := (s2.takeWhile isSpaceChar).length
    if sp = 0 then none
    else
      let s3 := s2.drop sp
      let w := s3.takeWhile isWordChar
      if w.length = 0 then none
      else some (s.length - (s3.length - w.length), String.mk w)

/-- `True` at the positions where the MULTILINE `^` anchor matches. -/
def anchorAt (content : List Char) (pos : Nat) : Bool :=
  pos == 0 || content.getD (pos - 1) ' ' == '\n'

/-- `finditer` for a `^`-anchored pattern: try the matcher at every
anchor position, leftmost first, continuing after each match
(non-overlapping).  Returns `(start, captured)` pairs. -/
def scanAnchored (m : List Char → Option (Nat × String))
    (content : List Char) : Nat → Nat → List (Nat × String)
  | _, 0 => []
  | pos, fuel + 1 =>
    if pos < content.length then
      match (if anchorAt content pos then m (content.drop pos) else none) with
      | some pr =>
        (pos, pr.2) :: scanAnchored m content (pos + max pr.1 1) fuel
      | none => scanAnchored m content (pos + 1) fuel
    else []

/-- All `function_pattern` matches of a file: start positions and
captured names, in order.  (`findall` is the list of names,
`finditer` additionally provides the start positions.) -/
def fnMatches (content : String) : List (Nat × String) :=
  scanAnchored matchFn? content.data 0 (content.length + 1)

/-- All `class_pattern` matches of a file. -/
def classMatches (content : String) : List (Nat × String) :=
  scanAnchored matchClass? content.data 0 (content.length + 1)

/-- `doc_block_pattern.findall`: `/\*\*.*?\*/` with DOTALL — from each
`/**`, the non-greedy `.*?` ends at the earliest following `*/`. -/
def docBlockScan (content : List Char) : Nat → List String
  | 0 => []
  | fuel + 1 =>
    match content with
    | [] => []
    | c :: rest =>
      if "/**".data.isPrefixOf (c :: rest) then
        match findSub "*/".data ((c :: rest).drop 3) with
        | some i =>
          String.mk ((c :: rest).take (3 + i + 2)) ::
            docBlockScan ((c :: rest).drop (3 + i + 2)) fuel
        | none => docBlockScan rest fuel
      else docBlockScan rest fuel

/-- The `doc_blocks` list of a file. -/
def docBlocksOf (content : String) : List String :=
  docBlockScan content.data (content.length + 1)

/-- Attempt of `doc_line_pattern` (without the `^` anchor) at the start
of `s`: `\s*///.*$` — greedy spaces (which may span blank lines), the
literal `///`, then the rest of the line. -/
def matchDocLine? (s : List Char) : Option (Nat × String) :=
  let sp := (s.takeWhile isSpaceChar).length
  if "///".data.isPrefixOf (s.drop sp) then
    let body := ((s.drop sp).drop 3).takeWhile (fun c => !(c == '\n'))
    some (sp + 3 + body.length, String.mk (s.take (sp + 3 + body.length)))
  else none

/-- The `doc_lines` list of a file (`doc_line_pattern.findall`). -/
def docLinesOf (content : String) : List String :=
  (scanAnchored matchDocLine? content.data 0 (content.length + 1)).map (·.2)

/-- `'\n'.join(doc_blocks + doc_lines)` (`analyze_docs.py`, line 86). -/
def allDocsOf (content : String) : String :=
  String.intercalate "\n" (docBlocksOf content ++ docLinesOf content)

/-- `brief_pattern.findall(all_docs)` count: `\\brief|@brief|///<`. -/
def briefCountOf (content : String) : Nat :=
  countAlts ["\\brief".data, "@brief".data, "///<".data]
    (allDocsOf content).data ((allDocsOf content).length + 1)

/-- `param_pattern.findall(all_docs)` count: `\\param|@param`. -/
def paramCountOf (content : String) : Nat :=
  countAlts ["\\param".data, "@param".data]
    (allDocsOf content).data ((allDocsOf content).length + 1)

/-- `return_pattern.findall(all_docs)` count: `\\return|@return`. -/
def returnCountOf (content : String) : Nat :=
  countAlts ["\\return".data, "@return".data]
    (allDocsOf content).data ((allDocsOf content).length + 1)

/-- A line contributes to `doc_positions` when it contains `/**` or
`///` (`analyze_docs.py`, line 96). -/
def hasDocMarker (l : List Char) : Bool :=
  (findSub "/**".data l).isSome || (findSub "///".data l).isSome

/-- Membership of line `i` in the `doc_positions` set: some marker line
`j` satisfies `j ≤ i < j + 10` (the 10-line forward window of lines
97-99; the `min` cap only excludes indices past the end, which never
arise for lines of actual matches). -/
def lineCovered (lines : List (List Char)) (i : Nat) : Bool :=
  (List.range lines.length).any (fun j =>
    hasDocMarker (lines.getD j []) && decide (j ≤ i) && decide (i < j + 10))

/-- The documented-declaration test of lines 104 and 109: the match's
line, or either of the two preceding lines, is in `doc_positions`
(Python's `line_num - 1`/`line_num - 2` are negative — hence never in
the set — when the match is on line 0 or 1). -/
def declDocumented (lines : List (List Char)) (ln : Nat) : Bool :=
  lineCovered lines ln ||
  (decide (1 ≤ ln) && lineCovered lines (ln - 1)) ||
  (decide (2 ≤ ln) && lineCovered lines (ln - 2))

/-- The control-flow stoplist of `analyze_docs.py`, line 79. -/
def stoplist : List String := ["if", "while", "for", "switch", "return"]

/-- `functions` after the stoplist filter (line 79): the `findall` names
with control-flow keywords removed. -/
def filteredFunctionsOf (content : String) : List String :=
  ((fnMatches content).map (·.2)).filter (fun f => !(stoplist.contains f))

/-- `documented_classes` (lines 102-105): counted over *all*
`class_pattern` matches. -/
def documentedClassesOf (content : String) : Nat :=
  ((classMatches content).filter (fun m =>
    declDocumented (splitOnNl content.data) (lineNumAt content.data m.1))).length

/-- `documented_functions` (lines 107-110): counted over *all*
`function_pattern` matches — the stoplist of line 79 is *not* applied
here. -/
def documentedFunctionsOf (content : String) : Nat :=
  ((fnMatches content).filter (fun m =>
    declDocumented (splitOnNl content.data) (lineNumAt content.data m.1))).length

/-- `total_items = len(classes) + len(functions)` (line 113). -/
def totalItemsOf (content : String) : Nat :=
  (classMatches content).length + (filteredFunctionsOf content).length

/-- `documented_items = documented_classes + documented_functions`. -/
def documentedItemsOf (content : String) : Nat :=
  documentedClassesOf content + documentedFunctionsOf content

/-- `doc_ratio = documented_items / total_items if total_items > 0 else 0`
(line 125), with the float division modelled over `ℚ`. -/
def docRatioOf (content : String) : ℚ :=
  if 0 < totalItemsOf content then
    (documentedItemsOf content : ℚ) / (totalItemsOf content : ℚ)
  else 0

/-- The quality-score formula of lines 128-148 over its five signals. -/
def qualityScore (docRatio : ℚ) (paramCount returnCount briefCount : Nat)
    (docChars codeChars : Nat) : Nat :=
  (if docRatio > 7/10 then 30
   else if docRatio > 2/5 then 15
   else if docRatio > 1/10 then 5
   else 0) +
  (if 0 < paramCount then 20 else 0) +
  (if 0 < returnCount then 20 else 0) +
  (if 0 < briefCount then 15 else 0) +
  (if 0 < codeChars then
     (if (docChars : ℚ) / (codeChars : ℚ) > 1/10 then 15 else 0)
   else 0)

/-- `quality_score` of a file. -/
def qualityScoreOf (content : String) : Nat :=
  qualityScore (docRatioOf content) (paramCountOf content)
    (returnCountOf content) (briefCountOf content)
    (allDocsOf content).length content.length

/-- The categorization of lines 150-156. -/
def categorize (score : Nat) : String :=
  if score ≥ 60 then "well_documented"
  else if score ≥ 25 then "partially_documented"
  else "poorly_documented"

/-- The per-file record returned by `DocAnalyzer.analyze_file`
(lines 158-173; the `file` path field is kept by the caller and not
needed here). -/
structure FileDocResult where
  classes : Nat
  functions : Nat
  documentedClasses : Nat
  documentedFunctions : Nat
  docBlocks : Nat
  docLines : Nat
  briefCount : Nat
  paramCount : Nat
  returnCount : Nat
  docRatio : ℚ
  qualityScore : Nat
  category : String
  fileSize : Nat
  deriving Repr, DecidableEq

/-- `DocAnalyzer.analyze_file` on a successfully read file. -/
def analyzeFile (content : String) : FileDocResult :=
  { classes := (classMatches content).length
    functions := (filteredFunctionsOf content).length
    documentedClasses := documentedClassesOf content
    documentedFunctions := documentedFunctionsOf content
    docBlocks := (docBlocksOf content).length
    docLines := (docLinesOf content).length
    briefCount := briefCountOf content
    paramCount := paramCountOf content
    returnCount := returnCountOf content
    docRatio := docRatioOf content
    qualityScore := qualityScoreOf content
    category := categorize (qualityScoreOf content)
    fileSize := content.length }

/-!
### `DocAnalyzer.analyze_directory` (lines 175-219)

The directory walk itself is an external collaborator; the fold over
the files it yields is modelled over a list of `Option String`
(`none` is a file whose read raised, for which `analyze_file` returns
`None` and the caller skips every statistics update).  The per-module
rollup (`module_stats`) is keyed by path structure only and is not
needed by any claim; the global counters and the three category lists
are modelled.
-/

/-- The mutable aggregate of a `DocAnalyzer` run (the `stats` dict,
restricted to the global counters and category partitions). -/
structure DocRunStats where
  totalFiles : Nat
  totalClasses : Nat
  totalFunctions : Nat
  documentedClasses : Nat
  documentedFunctions : Nat
  wellDocumented : List FileDocResult
  partiallyDocumented : List FileDocResult
  poorlyDocumented : List FileDocResult
  deriving Repr

/-- The initial `stats` dict of the constructor. -/
def initDocStats : DocRunStats := ⟨0, 0, 0, 0, 0, [], [], []⟩

/-- `self.stats['files_by_category'][category].append(result)`
(line 195): the dict lookup is keyed by `result.category`, which
`analyze_file` always sets to one of the three category strings, so it
is modelled by matching on them (the final branch is the
`poorly_documented` key). -/
def addToCategory (st : DocRunStats) (r : FileDocResult) : DocRunStats :=
  if r.category = "well_documented" then
    { st with wellDocumented := st.wellDocumented ++ [r] }
  else if r.category = "partially_documented" then
    { st with partiallyDocumented := st.partiallyDocumented ++ [r] }
  else
    { st with poorlyDocumented := st.poorlyDocumented ++ [r] }

/-- One iteration of the loop of lines 186-195: a `none` result (failed
read) updates nothing; otherwise every counter is folded and the result
is appended to its category list. -/
def docFoldStep (st : DocRunStats) (file : Option String) : DocRunStats :=
  match file with
  | none => st
  | some content =>
    addToCategory
      { st with
        totalFiles := st.totalFiles + 1
        totalClasses := st.totalClasses + (analyzeFile content).classes
        totalFunctions := st.totalFunctions + (analyzeFile content).functions
        documentedClasses :=
          st.documentedClasses + (analyzeFile content).documentedClasses
        documentedFunctions :=
          st.documentedFunctions + (analyzeFile content).documentedFunctions }
      (analyzeFile content)

/-- A full `analyze_directory` run over the enumerated files. -/
def analyzeDirectory (files : List (Option String)) : DocRunStats :=
  files.foldl docFoldStep initDocStats

/-- The number of files across the three category partitions. -/
def categoryTotal (st : DocRunStats) : Nat :=
  st.wellDocumented.length + st.partiallyDocumented.length +
    st.poorlyDocumented.length

/-- A file on which the stoplist asymmetry is visible: the line
`int  if (x);` produces a `function_pattern` match named `if` (removed
from `functions` by the stoplist but still visited by the
documented-count loop), and the leading `///` line covers both
declaration sites. -/
def exStoplist : String := "/// d\nint  if (x);\nint  f (x);\n"

end DocA

namespace QualA

/-!
### `CodeQualityAnalyzer` of `analyze_code_quality.py`

Regular expressions of the constructor and of `analyze_file`:
  * `magic_number_pattern =`
    `(?<![a-zA-Z0-9_])(?:(?:0x[0-9a-fA-F]+)|(?:\d{3,}(?:\.\d+)?)|`
    `(?:\d+\.\d{3,}))(?![a-zA-Z0-9_e])`
  * `year_pattern = (?:19|20)\d{2}`
  * `todo_pattern = //.*?TODO|/\*.*?TODO.*?\*/` (IGNORECASE), and the
    same shapes for FIXME and HACK
  * `deprecated_pattern = deprecated|obsolete` (IGNORECASE)
  * comment stripping per line: `//.*$` then `/\*.*?\*/`
  * keywords: `\b(if|for|while|switch|case)\b`
  * block extraction: `\{[^{}]*(?:\{[^{}]*\}[^{}]*)*\}` (DOTALL)
-/

/-- `re.sub(r'//.*$', '', line)`: drop everything from the first `//`. -/
def stripLineComment (l : List Char) : List Char :=
  match findSub "//".data l with
  | some i => l.take i
  | none => l

/-- `re.sub(r'/\*.*?\*/', '', line)`: remove every non-overlapping
`/* ... */` span (non-greedy, so each span ends at the earliest `*/`);
an unclosed `/*` is left in place. -/
def stripBlockOnLine (l : List Char) : Nat → List Char
  | 0 => l
  | fuel + 1 =>
    match findSub "/*".data l with
    | none => l
    | some i =>
      match findSub "*/".data (l.drop (i + 2)) with
      | none => l
      | some j =>
        l.take i ++ stripBlockOnLine ((l.drop (i + 2)).drop (j + 2)) fuel

/-- Join lines with `'\n'` (`'\n'.join(code_only)`). -/
def joinNl : List (List Char) → List Char
  | [] => []
  | [l] => l
  | l :: l2 :: r => l ++ '\n' :: joinNl (l2 :: r)

/-- The comment-stripped `code_text` of lines 84-92. -/
def codeTextOf (content : String) : List Char :=
  joinNl ((splitOnNl content.data).map (fun l =>
    stripBlockOnLine (stripLineComment l) (l.length + 1)))

/-- `[0-9a-fA-F]`. -/
def hexDigit (c : Char) : Bool :=
  c.isDigit || ('a' ≤ c && c ≤ 'f') || ('A' ≤ c && c ≤ 'F')

/-- The trailing lookahead `(?![a-zA-Z0-9_e])` (`e` is already a
letter, so the class is exactly the word characters). -/
def aheadOk (s : List Char) : Bool :=
  match s with
  | [] => true
  | c :: _ => !(isWordChar c)

/-- `hi, hi - 1, ..., lo`: greedy backtracking candidates for a counted
repetition (empty when `lo > hi`). -/
def descRange (hi lo : Nat) : List Nat :=
  (List.range (hi + 1 - lo)).map (fun i => hi - i)

/-- Attempt of `magic_number_pattern` (alternation plus trailing
lookahead, without the leading lookbehind) at the start of `s`: returns
the consumed length.  Each quantifier's candidates are tried in greedy
order and the optional fractional part is tried before being skipped,
reproducing Python's backtracking. -/
def matchMagic? (s : List Char) : Option Nat :=
  (match s with
   | '0' :: 'x' :: rest =>
     (descRange ((rest.takeWhile hexDigit).length) 1).findSome? (fun k =>
       if aheadOk (rest.drop k) then some (2 + k) else none)
   | _ => none)
  <|>
  ((descRange ((s.takeWhile Char.isDigit).length) 3).findSome? (fun k =>
    (match s.drop k with
     | '.' :: fr =>
       (descRange ((fr.takeWhile Char.isDigit).length) 1).findSome? (fun j =>
         if aheadOk (fr.drop j) then some (k + 1 + j) else none)
     | _ => none)
    <|> (if aheadOk (s.drop k) then some k else none)))
  <|>
  ((descRange ((s.takeWhile Char.isDigit).length) 1).findSome? (fun k =>
    match s.drop k with
    | '.' :: fr =>
      (descRange ((fr.takeWhile Char.isDigit).length) 3).findSome? (fun j =>
        if aheadOk (fr.drop j) then some (k + 1 + j) else none)
    | _ => none))

/-- `magic_number_pattern.findall`: leftmost scan with the
`(?<![a-zA-Z0-9_])` lookbehind checked at each position. -/
def magicScanAux (content : List Char) : Nat → Nat → List String
  | _, 0 => []
  | pos, fuel + 1 =>
    if pos < content.length then
      if pos == 0 || !(isWordChar (content.getD (pos - 1) ' ')) then
        match matchMagic? (content.drop pos) with
        | some len =>
          String.mk ((content.drop pos).take len) ::
            magicScanAux content (pos + max len 1) fuel
        | none => magicScanAux content (pos + 1) fuel
      else magicScanAux content (pos + 1) fuel
    else []

/-- `magic_numbers = self.magic_number_pattern.findall(code_text)`
(line 93). -/
def magicNumbersOf (content : String) : List String :=
  magicScanAux (codeTextOf content) 0 ((codeTextOf content).length + 1)

/-- `filtered_magic` (line 96): drop the conventional constants (an
exact, case-sensitive string comparison). -/
def filteredMagicOf (content : String) : List String :=
  (magicNumbersOf content).filter
    (fun m => !(["100", "1000", "0x00", "0xff"].contains m))

/-- 1 when the maximal word run at the head of `s` is a control-flow
keyword, 0 otherwise. -/
def kwInc (s : List Char) : Nat :=
  if ["if", "for", "while", "switch", "case"].contains
      (String.mk (s.takeWhile isWordChar)) then 1 else 0

/-- The suffix after the maximal word run at the head of `s`. -/
def kwRest (s : List Char) : List Char :=
  s.drop ((s.takeWhile isWordChar).length)

/-- `len(re.findall(r'\b(if|for|while|switch|case)\b', content))`:
since the keywords consist of word characters only and are
boundary-delimited on both sides, the matches are exactly the maximal
word-character runs equal to a keyword (tail-recursive accumulator
form). -/
def kwCountAux (acc : Nat) : List Char → Nat → Nat
  | _, 0 => acc
  | [], _ => acc
  | c :: rest, fuel + 1 =>
    if isWordChar c then
      kwCountAux (acc + kwInc (c :: rest)) (kwRest (c :: rest)) fuel
    else kwCountAux acc rest fuel

/-- `control_keywords` (line 111). -/
def controlKeywordCount (content : String) : Nat :=
  kwCountAux 0 content.data (listLen 1 content.data)

/-- The line predicate of `lines_of_code` (line 112): nonempty after
stripping and not beginning (after stripping) with `//`. -/
def locLine (l : List Char) : Bool :=
  !(trimChars l).isEmpty && !("//".data.isPrefixOf (trimChars l))

/-- `lines_of_code` (line 112). -/
def linesOfCode (content : String) : Nat :=
  (splitOnNl content.data).countP locLine

/-- Python's binary `max`: the second argument only when it is
strictly larger (equal to the lattice `max`, see
`claim_c6_complexity`). -/
def pymax (a b : ℚ) : ℚ := if a < b then b else a

/-- `complexity = control_keywords / max(lines_of_code / 100, 1)`
(line 114), float arithmetic modelled over `ℚ`. -/
def complexityOf (content : String) : ℚ :=
  (controlKeywordCount content : ℚ) /
    pymax ((linesOfCode content : ℚ) / 100) 1

/-- `year_pattern.findall` values: `(?:19|20)\d{2}`, leftmost,
non-overlapping, converted to numbers. -/
def yearScanAux : List Char → Nat → List Nat
  | _, 0 => []
  | c1 :: c2 :: c3 :: c4 :: r, fuel + 1 =>
    if ((c1 == '1' && c2 == '9') || (c1 == '2' && c2 == '0')) &&
        c3.isDigit && c4.isDigit then
      ((c1.toNat - 48) * 1000 + (c2.toNat - 48) * 100 +
        (c3.toNat - 48) * 10 + (c4.toNat - 48)) :: yearScanAux r fuel
    else yearScanAux (c2 :: c3 :: c4 :: r) fuel
  | _, _ => []

/-- The year tokens of a file (line 128, over the raw content). -/
def yearsOf (content : String) : List Nat :=
  yearScanAux content.data (content.length + 1)

/-- `min(years_int)` when any year token exists. -/
def oldestYearOf? (content : String) : Option Nat :=
  match yearsOf content with
  | [] => none
  | y :: ys => some (ys.foldl Nat.min y)

/-- Case-insensitive substring search (IGNORECASE via lowercasing). -/
def findSubCI (needle hay : List Char) : Option Nat :=
  findSub (needle.map Char.toLower) (hay.map Char.toLower)

/-- Attempt of `//.*?TGT|/\*.*?TGT.*?\*/` (IGNORECASE) at the start of
`s`: both alternatives are line-scoped because `.` does not match a
newline; the non-greedy parts end at the earliest `TGT` and the
earliest following `*/`.  (If no `*/` follows the first `TGT`
occurrence on the line, none follows a later occurrence either, so
taking the first occurrence is faithful to the backtracking.) -/
def matchSmell? (target : List Char) (s : List Char) : Option Nat :=
  match s with
  | '/' :: '/' :: r =>
    (match findSubCI target (r.takeWhile (fun c => !(c == '\n'))) with
     | some i => some (2 + i + target.length)
     | none => none)
  | '/' :: '*' :: r =>
    (match findSubCI target (r.takeWhile (fun c => !(c == '\n'))) with
     | some i =>
       match findSub "*/".data
           ((r.takeWhile (fun c => !(c == '\n'))).drop (i + target.length)) with
       | some j => some (2 + i + target.length + j + 2)
       | none => none
     | none => none)
  | _ => none

/-- `len(pattern.findall(content))` for the smell patterns. -/
def smellScanAux (target : List Char) (content : List Char) : Nat → Nat → Nat
  | _, 0 => 0
  | pos, fuel + 1 =>
    if pos < content.length then
      match matchSmell? target (content.drop pos) with
      | some len => 1 + smellScanAux target content (pos + max len 1) fuel
      | none => smellScanAux target content (pos + 1) fuel
    else 0

/-- `todos` (line 146). -/
def todoCountOf (content : String) : Nat :=
  smellScanAux "todo".data content.data 0 (content.length + 1)

/-- `fixmes` (line 151). -/
def fixmeCountOf (content : String) : Nat :=
  smellScanAux "fixme".data content.data 0 (content.length + 1)

/-- `hacks` (line 156). -/
def hackCountOf (content : String) : Nat :=
  smellScanAux "hack".data content.data 0 (content.length + 1)

/-- `deprecated` (line 161): `deprecated|obsolete`, IGNORECASE. -/
def deprecatedCountOf (content : String) : Nat :=
  countAlts ["deprecated".data, "obsolete".data]
    (content.data.map Char.toLower) (content.length + 1)

/-- `[^{}]`. -/
def nonBrace (c : Char) : Bool := !(c == '{') && !(c == '}')

/-- The body of `\{[^{}]*(?:\{[^{}]*\}[^{}]*)*\}` after the opening
brace: alternate maximal brace-free runs with one-level nested `{...}`
groups until the closing brace.  Every quantifier here is forced (a
shorter run would put a brace-free character where a brace is required
and vice versa), so the scan is deterministic. -/
def braceInner (r : List Char) (acc : Nat) : Nat → Option Nat
  | 0 => none
  | fuel + 1 =>
    match r.drop ((r.takeWhile nonBrace).length) with
    | '}' :: _ => some (acc + (r.takeWhile nonBrace).length + 1)
    | '{' :: r2 =>
      match r2.drop ((r2.takeWhile nonBrace).length) with
      | '}' :: r3 =>
        braceInner r3
          (acc + (r.takeWhile nonBrace).length + 1 +
            (r2.takeWhile nonBrace).length + 1) fuel
      | _ => none
    | _ => none

/-- Attempt of the block pattern at the start of `s`. -/
def matchBrace? (s : List Char) : Option Nat :=
  match s with
  | '{' :: r =>
    match braceInner r 0 (r.length + 1) with
    | some inner => some (1 + inner)
    | none => none
  | _ => none

/-- `function_pattern.findall(content)` of line 172-173, returning each
matched block's newline count (`f.count('\n')`). -/
def braceScanAux (content : List Char) : Nat → Nat → List Nat
  | _, 0 => []
  | pos, fuel + 1 =>
    if pos < content.length then
      match matchBrace? (content.drop pos) with
      | some len =>
        ((content.drop pos).take len).countP (fun c => c == '\n') ::
          braceScanAux content (pos + max len 1) fuel
      | none => braceScanAux content (pos + 1) fuel
    else []

/-- `len(long_funcs)` (line 174): blocks spanning more than 100
newlines. -/
def longFunctionCountOf (content : String) : Nat :=
  ((braceScanAux content.data 0 (content.length + 1)).filter
    (fun n => 100 < n)).length

/-- The running brace-depth scan of lines 180-187 (the counter may go
negative on stray closing braces, hence `Int`). -/
def maxNestAux (cur mx : Int) : List Char → Int
  | [] => mx
  | c :: r =>
    if c = '{' then maxNestAux (cur + 1) (max mx (cur + 1)) r
    else if c = '}' then maxNestAux (cur - 1) mx r
    else maxNestAux cur mx r

/-- `max_nesting` of a file. -/
def maxNestingOf (content : String) : Int :=
  maxNestAux 0 0 content.data

/-- An entry of `stats['examples']['magic_numbers']` (lines 103-108;
the path is modelled as the string handed to the scanner — the
`relative_to` prettification is presentation only). -/
structure MagicExample where
  file : String
  count : Nat
  samples : List String
  deriving Repr, DecidableEq

/-- An entry of `stats['examples']['deep_nesting']` (lines 193-197). -/
structure NestingExample where
  file : String
  depth : Int
  deriving Repr, DecidableEq

/-- The `stats` dict of `CodeQualityAnalyzer` (field names follow the
nested keys; `examples` holds lists only for the three families the
code ever appends to). -/
structure QualityStats where
  filesWithMagicNumbers : Nat
  totalMagicNumbers : Nat
  veryComplex : Nat
  complexFiles : Nat
  moderate : Nat
  simple : Nat
  veryOld : Nat
  oldFiles : Nat
  recent : Nat
  modern : Nat
  todoComments : Nat
  fixmeComments : Nat
  hackComments : Nat
  deprecatedFiles : Nat
  longFunctions : Nat
  deepNesting : Nat
  magicExamples : List MagicExample
  deprecatedExamples : List String
  nestingExamples : List NestingExample
  deriving Repr, DecidableEq

/-- The zeroed `stats` dict of the constructor. -/
def initStats : QualityStats :=
  ⟨0, 0, 0, 0, 0, 0, 0, 0, 0, 0, 0, 0, 0, 0, 0, 0, [], [], []⟩

/-- Lines 98-108: the magic-number counters and capped example list. -/
def updateMagic (st : QualityStats) (path content : String) : QualityStats :=
  if 5 ≤ (filteredMagicOf content).length then
    if st.magicExamples.length < 5 then
      { st with
        filesWithMagicNumbers := st.filesWithMagicNumbers + 1
        totalMagicNumbers :=
          st.totalMagicNumbers + (filteredMagicOf content).length
        magicExamples := st.magicExamples ++
          [{ file := path, count := (filteredMagicOf content).length,
             samples := (filteredMagicOf content).take 5 }] }
    else
      { st with
        filesWithMagicNumbers := st.filesWithMagicNumbers + 1
        totalMagicNumbers :=
          st.totalMagicNumbers + (filteredMagicOf content).length }
  else st

/-- Lines 114-125: the four-way complexity classification. -/
def updateComplexity (st : QualityStats) (content : String) : QualityStats :=
  if 15 < complexityOf content then
    { st with veryComplex := st.veryComplex + 1 }
  else if 10 < complexityOf content then
    { st with complexFiles := st.complexFiles + 1 }
  else if 5 < complexityOf content then
    { st with moderate := st.moderate + 1 }
  else
    { st with simple := st.simple + 1 }

/-- Lines 128-143: the age classification by oldest year token. -/
def updateAge (st : QualityStats) (content : String) : QualityStats :=
  match oldestYearOf? content with
  | none => st
  | some y =>
    if y < 2010 then { st with veryOld := st.veryOld + 1 }
    else if y < 2016 then { st with oldFiles := st.oldFiles + 1 }
    else if y < 2021 then { st with recent := st.recent + 1 }
    else { st with modern := st.modern + 1 }

/-- Lines 146-149. -/
def bumpTodo (st : QualityStats) (content : String) : QualityStats :=
  if 0 < todoCountOf content then
    { st with todoComments := st.todoComments + todoCountOf content }
  else st

/-- Lines 151-154. -/
def bumpFixme (st : QualityStats) (content : String) : QualityStats :=
  if 0 < fixmeCountOf content then
    { st with fixmeComments := st.fixmeComments + fixmeCountOf content }
  else st

/-- Lines 156-159. -/
def bumpHack (st : QualityStats) (content : String) : QualityStats :=
  if 0 < hackCountOf content then
    { st with hackComments := st.hackComments + hackCountOf content }
  else st

/-- Lines 161-169: the per-file deprecated flag and its capped example
list. -/
def bumpDeprecated (st : QualityStats) (path content : String) : QualityStats :=
  if 0 < deprecatedCountOf content then
    if st.deprecatedExamples.length < 5 then
      { st with
        deprecatedFiles := st.deprecatedFiles + 1
        deprecatedExamples := st.deprecatedExamples ++ [path] }
    else { st with deprecatedFiles := st.deprecatedFiles + 1 }
  else st

/-- Lines 171-177. -/
def bumpLongFunctions (st : QualityStats) (content : String) : QualityStats :=
  if 0 < longFunctionCountOf content then
    { st with longFunctions := st.longFunctions + longFunctionCountOf content }
  else st

/-- Lines 179-197: the deep-nesting flag and its capped example list. -/
def bumpNesting (st : QualityStats) (path content : String) : QualityStats :=
  if 6 < maxNestingOf content then
    if st.nestingExamples.length < 5 then
      { st with
        deepNesting := st.deepNesting + 1
        nestingExamples :=
          st.nestingExamples ++ [{ file := path, depth := maxNestingOf content }] }
    else { st with deepNesting := st.deepNesting + 1 }
  else st

/-- `CodeQualityAnalyzer.analyze_file` on a successfully read file:
the statistics updates in source order (the returned per-file `issues`
record is free text for display and is not modelled). -/
def analyzeFileQ (st : QualityStats) (path content : String) : QualityStats :=
  bumpNesting
    (bumpLongFunctions
      (bumpDeprecated
        (bumpHack
          (bumpFixme
            (bumpTodo
              (updateAge
                (updateComplexity (updateMagic st path content) content)
                content)
              content)
            content)
          content)
        path content)
      content)
    path content

/-- One iteration of `analyze_from_json`'s loop: a file that no longer
exists (or cannot be read) is skipped without touching the stats. -/
def qualityStep (st : QualityStats) (f : String × Option String) : QualityStats :=
  match f.2 with
  | none => st
  | some content => analyzeFileQ st f.1 content

/-- The sum of the four complexity counters. -/
def complexitySum (st : QualityStats) : Nat :=
  st.veryComplex + st.complexFiles + st.moderate + st.simple

/-- Append to a capped example list exactly as the scanner does: only
when an example is produced and the list still has fewer than 5
entries. -/
def cappedAppend {β : Type} (l : List β) (e? : Option β) : List β :=
  match e? with
  | some e => if l.length < 5 then l ++ [e] else l
  | none => l

/-- The magic-number example produced by one file, when it qualifies
(readable and at least 5 filtered magic numbers). -/
def magicQual (f : String × Option String) : Option MagicExample :=
  match f.2 with
  | none => none
  | some content =>
    if 5 ≤ (filteredMagicOf content).length then
      some { file := f.1, count := (filteredMagicOf content).length,
             samples := (filteredMagicOf content).take 5 }
    else none

/-- The deprecated example produced by one file, when it qualifies. -/
def deprecatedQual (f : String × Option String) : Option String :=
  match f.2 with
  | none => none
  | some content =>
    if 0 < deprecatedCountOf content then some f.1 else none

/-- The deep-nesting example produced by one file, when it
qualifies. -/
def nestingQual (f : String × Option String) : Option NestingExample :=
  match f.2 with
  | none => none
  | some content =>
    if 6 < maxNestingOf content then
      some { file := f.1, depth := maxNestingOf content }
    else none

/-- A full second-pass run over the flagged files. -/
def runScanner (files : List (String × Option String)) : QualityStats :=
  files.foldl qualityStep initStats

/-- `line` followed by a newline, repeated `n` times, before `tail`. -/
def repLineChars (line : List Char) : Nat → List Char → List Char
  | 0, tail => tail
  | n + 1, tail => line ++ ('\n' :: repLineChars line n tail)

/-- The canonical-fuel form of the keyword scan. -/
def kwCountL (s : List Char) : Nat :=
  kwCountAux 0 s (s.length + 1)

/-- A line holding one control-flow keyword. -/
def lineIf : List Char := ['i', 'f']

/-- A code line holding no control-flow keyword. -/
def lineK : List Char := ['k']

/-- A 100-line file (no trailing newline) whose first 16 lines each
hold one control-flow keyword. -/
def exComplex100 : String :=
  String.mk (repLineChars lineIf 16 (repLineChars lineK 83 lineK))

/-- A 1000-line file (no trailing newline) whose first 16 lines each
hold one control-flow keyword. -/
def exComplex1000 : String :=
  String.mk (repLineChars lineIf 16 (repLineChars lineK 983 lineK))

end QualA

/-!
## Auxiliary lemmas

Shared lemmas used by several claim theorems below: fold invariants of
the two run models, the capped-example-list combinator, and closed
computations of `linesOfCode` and `controlKeywordCount` on files built
from a repeated newline-free line (these avoid deep kernel evaluation
on 1000-line witnesses).
-/

lemma listLen_eq {α : Type} (l : List α) : ∀ acc : Nat, listLen acc l = acc + l.length := by
  induction l with
  | nil => intro acc; simp [listLen]
  | cons c r ih => intro acc; simp [listLen, ih]; omega

lemma splitOnNlAux_step (l : List Char) :
    ∀ (cur : List Char) (acc : List (List Char)) (r : List Char),
      (∀ c ∈ l, c ≠ '\n') →
      splitOnNlAux cur acc (l ++ '\n' :: r) =
        splitOnNlAux [] ((cur.reverse ++ l) :: acc) r := by
  induction l with
  | nil => intro cur acc r _; simp [splitOnNlAux]
  | cons c l ih =>
    intro cur acc r hl
    have hc : c ≠ '\n' := hl c (List.mem_cons_self c l)
    simp only [List.cons_append, splitOnNlAux, if_neg hc, List.append_eq]
    rw [ih (c :: cur) acc r (fun x hx => hl x (List.mem_cons_of_mem _ hx))]
    simp [List.append_assoc]

lemma splitOnNlAux_last (l : List Char) :
    ∀ (cur : List Char) (acc : List (List Char)),
      (∀ c ∈ l, c ≠ '\n') →
      splitOnNlAux cur acc l = ((cur.reverse ++ l) :: acc).reverse := by
  induction l with
  | nil => intro cur acc _; simp [splitOnNlAux]
  | cons c l ih =>
    intro cur acc hl
    have hc : c ≠ '\n' := hl c (List.mem_cons_self c l)
    simp only [splitOnNlAux, if_neg hc]
    rw [ih (c :: cur) acc (fun x hx => hl x (List.mem_cons_of_mem _ hx))]
    simp [List.append_assoc]

lemma splitOnNlAux_repLine (line : List Char) (hline : ∀ c ∈ line, c ≠ '\n') :
    ∀ (n : Nat) (acc : List (List Char)) (tail : List Char),
      splitOnNlAux [] acc (QualA.repLineChars line n tail) =
        splitOnNlAux [] (List.replicate n line ++ acc) tail := by
  intro n
  induction n with
  | zero => intro acc tail; simp [QualA.repLineChars]
  | succ n ih =>
    intro acc tail
    simp only [QualA.repLineChars]
    rw [splitOnNlAux_step line [] acc _ hline]
    rw [ih (([].reverse ++ line) :: acc) tail]
    congr 1
    simp [List.replicate_succ', List.append_assoc]

lemma splitOnNl_two (l1 l2 last : List Char)
    (h1 : ∀ c ∈ l1, c ≠ '\n') (h2 : ∀ c ∈ l2, c ≠ '\n')
    (hlast : ∀ c ∈ last, c ≠ '\n') (n m : Nat) :
    splitOnNl (QualA.repLineChars l1 n (QualA.repLineChars l2 m last)) =
      List.replicate n l1 ++ (List.replicate m l2 ++ [last]) := by
  unfold splitOnNl
  rw [splitOnNlAux_repLine l1 h1, splitOnNlAux_repLine l2 h2,
    splitOnNlAux_last last _ _ hlast]
  simp [List.reverse_append, List.reverse_replicate, List.append_assoc]

lemma countP_replicate {α : Type} (p : α → Bool) (a : α) :
    ∀ n : Nat, (List.replicate n a).countP p = if p a then n else 0 := by
  intro n
  induction n with
  | zero => simp
  | succ n ih =>
    simp [List.replicate_succ, List.countP_cons, ih]
    split_ifs <;> omega

lemma kwCountAux_nil (acc f : Nat) : QualA.kwCountAux acc [] f = acc := by
  cases f <;> rfl

lemma takeWhile_len_le {α : Type} (p : α → Bool) :
    ∀ l : List α, (l.takeWhile p).length ≤ l.length := by
  intro l
  induction l with
  | nil => simp
  | cons c r ih =>
    rw [List.takeWhile_cons]
    split_ifs
    · simp only [List.length_cons]
      omega
    · simp

lemma kwTake_pos {c : Char} (rest : List Char) (hw : isWordChar c = true) :
    1 ≤ ((c :: rest).takeWhile isWordChar).length := by
  rw [List.takeWhile_cons, if_pos hw]
  simp

lemma kwRest_length_lt {c : Char} (rest : List Char) (hw : isWordChar c = true) :
    (QualA.kwRest (c :: rest)).length < (c :: rest).length := by
  unfold QualA.kwRest
  rw [List.length_drop]
  have h1 := kwTake_pos rest hw
  simp only [List.length_cons]
  omega

lemma kwCountAux_acc : ∀ (f : Nat) (s : List Char) (acc : Nat),
    QualA.kwCountAux acc s f = acc + QualA.kwCountAux 0 s f := by
  intro f
  induction f with
  | zero => intro s acc; cases s <;> simp [QualA.kwCountAux]
  | succ f ih =>
    intro s acc
    cases s with
    | nil => simp [kwCountAux_nil]
    | cons c rest =>
      by_cases hw : isWordChar c = true
      · simp only [QualA.kwCountAux, if_pos hw]
        rw [ih (QualA.kwRest (c :: rest)) (acc + QualA.kwInc (c :: rest)),
            ih (QualA.kwRest (c :: rest)) (0 + QualA.kwInc (c :: rest))]
        omega
      · simp only [QualA.kwCountAux, if_neg hw]
        exact ih rest acc

lemma kwCountAux_fuel : ∀ (f : Nat) (s : List Char) (acc g : Nat),
    s.length ≤ f → s.length ≤ g → QualA.kwCountAux acc s f = QualA.kwCountAux acc s g := by
  intro f
  induction f with
  | zero =>
    intro s acc g hf _
    have hs : s = [] := List.length_eq_zero.mp (Nat.le_zero.mp hf)
    subst hs
    simp [kwCountAux_nil]
  | succ f ih =>
    intro s acc g hf hg
    cases s with
    | nil => simp [kwCountAux_nil]
    | cons c rest =>
      cases g with
      | zero => simp at hg
      | succ g =>
        by_cases hw : isWordChar c = true
        · simp only [QualA.kwCountAux, if_pos hw]
          have hlt := kwRest_length_lt rest hw
          apply ih
          · simp only [List.length_cons] at hf hlt ⊢; omega
          · simp only [List.length_cons] at hg hlt ⊢; omega
        · simp only [QualA.kwCountAux, if_neg hw]
          apply ih
          · simp only [List.length_cons] at hf ⊢; omega
          · simp only [List.length_cons] at hg ⊢; omega

lemma kwCountL_nil : QualA.kwCountL [] = 0 := rfl

lemma isWordChar_nl : isWordChar '\n' = false := rfl

lemma takeWhile_append_nl (l r : List Char) :
    (l ++ '\n' :: r).takeWhile isWordChar = l.takeWhile isWordChar := by
  induction l with
  | nil => simp [List.takeWhile_cons, isWordChar_nl]
  | cons c l ih =>
    by_cases hw : isWordChar c = true
    · simp [List.takeWhile_cons, hw, ih]
    · simp [List.takeWhile_cons, hw]

lemma kwCountL_cons_nl (r : List Char) : QualA.kwCountL ('\n' :: r) = QualA.kwCountL r := by
  unfold QualA.kwCountL
  simp only [List.length_cons]
  simp only [QualA.kwCountAux, isWordChar_nl, Bool.false_eq_true, if_false]

lemma kwCountL_append_nl : ∀ (N : Nat) (l : List Char), l.length ≤ N →
    ∀ r : List Char, QualA.kwCountL (l ++ '\n' :: r) = QualA.kwCountL l + QualA.kwCountL r := by
  intro N
  induction N with
  | zero =>
    intro l hl r
    have hnil : l = [] := List.length_eq_zero.mp (Nat.le_zero.mp hl)
    subst hnil
    simp [kwCountL_cons_nl, kwCountL_nil]
  | succ N ih =>
    intro l hl r
    cases l with
    | nil => simp [kwCountL_cons_nl, kwCountL_nil]
    | cons c l' =>
      by_cases hw : isWordChar c = true
      · have hTW : ((c :: l') ++ '\n' :: r).takeWhile isWordChar
            = (c :: l').takeWhile isWordChar := takeWhile_append_nl _ _
        have hkle : ((c :: l').takeWhile isWordChar).length ≤ (c :: l').length :=
          takeWhile_len_le _ _
        have hK1 : 1 ≤ ((c :: l').takeWhile isWordChar).length := kwTake_pos l' hw
        have hDR : QualA.kwRest ((c :: l') ++ '\n' :: r)
            = QualA.kwRest (c :: l') ++ '\n' :: r := by
          unfold QualA.kwRest
          rw [hTW, List.drop_append_of_le_length hkle]
        have hInc : QualA.kwInc ((c :: l') ++ '\n' :: r) = QualA.kwInc (c :: l') := by
          unfold QualA.kwInc
          rw [hTW]
        have hRL : (QualA.kwRest (c :: l')).length < (c :: l').length :=
          kwRest_length_lt l' hw
        -- unfold the first scan step on both sides
        have hL : QualA.kwCountL ((c :: l') ++ '\n' :: r)
            = QualA.kwInc (c :: l') +
              QualA.kwCountL (QualA.kwRest (c :: l') ++ '\n' :: r) := by
          unfold QualA.kwCountL
          simp only [List.cons_append, List.length_cons, QualA.kwCountAux, if_pos hw,
            List.append_eq]
          rw [show (c :: (l' ++ '\n' :: r)) = (c :: l') ++ '\n' :: r by simp]
          rw [hDR, hInc]
          rw [kwCountAux_fuel ((l' ++ '\n' :: r).length + 1)
            (QualA.kwRest (c :: l') ++ '\n' :: r) _
            ((QualA.kwRest (c :: l') ++ '\n' :: r).length + 1)
            (by simp only [List.length_append, List.length_cons] at hRL ⊢; omega)
            (by omega)]
          rw [kwCountAux_acc]
          omega
        have hR : QualA.kwCountL (c :: l')
            = QualA.kwInc (c :: l') + QualA.kwCountL (QualA.kwRest (c :: l')) := by
          unfold QualA.kwCountL
          simp only [List.length_cons, QualA.kwCountAux, if_pos hw]
          rw [kwCountAux_fuel (l'.length + 1) (QualA.kwRest (c :: l')) _
            ((QualA.kwRest (c :: l')).length + 1)
            (by simp only [List.length_cons] at hRL ⊢; omega)
            (by omega)]
          rw [kwCountAux_acc]
          omega
        rw [hL, hR]
        rw [ih (QualA.kwRest (c :: l'))
          (by simp only [List.length_cons] at hRL hl ⊢; omega) r]
        omega
      · have hL : QualA.kwCountL ((c :: l') ++ '\n' :: r)
            = QualA.kwCountL (l' ++ '\n' :: r) := by
          unfold QualA.kwCountL
          simp only [List.cons_append, List.length_cons, QualA.kwCountAux, if_neg hw,
            List.append_eq]
        have hR : QualA.kwCountL (c :: l') = QualA.kwCountL l' := by
          unfold QualA.kwCountL
          simp only [List.length_cons, QualA.kwCountAux, if_neg hw]
        rw [hL, hR, ih l' (by simp only [List.length_cons] at hl; omega) r]

lemma kwCountL_repLine (line : List Char) :
    ∀ (n : Nat) (tail : List Char),
      QualA.kwCountL (QualA.repLineChars line n tail) =
        n * QualA.kwCountL line + QualA.kwCountL tail := by
  intro n
  induction n with
  | zero => intro tail; simp [QualA.repLineChars]
  | succ n ih =>
    intro tail
    simp only [QualA.repLineChars]
    rw [kwCountL_append_nl line.length line (le_refl _), ih]
    ring

lemma controlKeywordCount_eq (content : String) :
    QualA.controlKeywordCount content = QualA.kwCountL content.data := by
  unfold QualA.controlKeywordCount QualA.kwCountL
  rw [listLen_eq, Nat.add_comm]

lemma kwCountL_lineIf : QualA.kwCountL QualA.lineIf = 1 := by decide

lemma kwCountL_lineK : QualA.kwCountL QualA.lineK = 0 := by decide

lemma kw_exComplex100 : QualA.controlKeywordCount QualA.exComplex100 = 16 := by
  rw [controlKeywordCount_eq]
  show QualA.kwCountL
    (QualA.repLineChars QualA.lineIf 16 (QualA.repLineChars QualA.lineK 83 QualA.lineK)) = 16
  rw [kwCountL_repLine, kwCountL_repLine, kwCountL_lineIf, kwCountL_lineK]

lemma kw_exComplex1000 : QualA.controlKeywordCount QualA.exComplex1000 = 16 := by
  rw [controlKeywordCount_eq]
  show QualA.kwCountL
    (QualA.repLineChars QualA.lineIf 16 (QualA.repLineChars QualA.lineK 983 QualA.lineK)) = 16
  rw [kwCountL_repLine, kwCountL_repLine, kwCountL_lineIf, kwCountL_lineK]

lemma locLine_lineIf : QualA.locLine QualA.lineIf = true := by decide

lemma locLine_lineK : QualA.locLine QualA.lineK = true := by decide

lemma loc_exComplex100 : QualA.linesOfCode QualA.exComplex100 = 100 := by
  unfold QualA.linesOfCode
  show (splitOnNl
    (QualA.repLineChars QualA.lineIf 16 (QualA.repLineChars QualA.lineK 83 QualA.lineK))).countP
      QualA.locLine = 100
  rw [splitOnNl_two _ _ _ (by decide) (by decide) (by decide)]
  rw [List.countP_append, List.countP_append, countP_replicate, countP_replicate]
  simp [locLine_lineIf, locLine_lineK, List.countP_cons]

lemma loc_exComplex1000 : QualA.linesOfCode QualA.exComplex1000 = 1000 := by
  unfold QualA.linesOfCode
  show (splitOnNl
    (QualA.repLineChars QualA.lineIf 16 (QualA.repLineChars QualA.lineK 983 QualA.lineK))).countP
      QualA.locLine = 1000
  rw [splitOnNl_two _ _ _ (by decide) (by decide) (by decide)]
  rw [List.countP_append, List.countP_append, countP_replicate, countP_replicate]
  simp [locLine_lineIf, locLine_lineK, List.countP_cons]

lemma complexity_exComplex100 : QualA.complexityOf QualA.exComplex100 = 16 := by
  unfold QualA.complexityOf
  rw [kw_exComplex100, loc_exComplex100]
  norm_num [QualA.pymax]

lemma complexity_exComplex1000 : QualA.complexityOf QualA.exComplex1000 = 8 / 5 := by
  unfold QualA.complexityOf
  rw [kw_exComplex1000, loc_exComplex1000]
  norm_num [QualA.pymax]

lemma docFoldStep_none (st : DocA.DocRunStats) : DocA.docFoldStep st none = st := rfl

lemma docFoldStep_some_catTotal (st : DocA.DocRunStats) (c : String) :
    DocA.categoryTotal (DocA.docFoldStep st (some c)) = DocA.categoryTotal st + 1 := by
  unfold DocA.docFoldStep DocA.addToCategory DocA.categoryTotal
  dsimp only
  split_ifs <;> simp [List.length_append] <;> omega

lemma docFoldStep_some_totalFiles (st : DocA.DocRunStats) (c : String) :
    (DocA.docFoldStep st (some c)).totalFiles = st.totalFiles + 1 := by
  unfold DocA.docFoldStep DocA.addToCategory
  dsimp only
  split_ifs <;> rfl

lemma docFold_inv : ∀ (files : List (Option String)) (st : DocA.DocRunStats),
    DocA.categoryTotal (files.foldl DocA.docFoldStep st) =
      DocA.categoryTotal st + files.countP (fun f => f.isSome) ∧
    (files.foldl DocA.docFoldStep st).totalFiles =
      st.totalFiles + files.countP (fun f => f.isSome) := by
  intro files
  induction files with
  | nil => intro st; simp
  | cons f fs ih =>
    intro st
    obtain ⟨h1, h2⟩ := ih (DocA.docFoldStep st f)
    cases f with
    | none =>
      simp only [List.foldl_cons, docFoldStep_none] at h1 h2 ⊢
      simp [List.countP_cons, h1, h2]
    | some c =>
      simp only [List.foldl_cons] at h1 h2 ⊢
      rw [h1, h2, docFoldStep_some_catTotal, docFoldStep_some_totalFiles]
      simp [List.countP_cons]
      omega

lemma cappedAppend_foldl {α β : Type} (q : α → Option β) :
    ∀ (files : List α) (l : List β), l.length ≤ 5 →
      files.foldl (fun acc f => QualA.cappedAppend acc (q f)) l =
        l ++ (files.filterMap q).take (5 - l.length) := by
  intro files
  induction files with
  | nil => intro l _; simp
  | cons f fs ih =>
    intro l hl
    rw [List.foldl_cons]
    cases hq : q f with
    | none =>
      rw [List.filterMap_cons_none hq]
      have hstep : QualA.cappedAppend l none = l := rfl
      rw [hstep]
      exact ih l hl
    | some e =>
      rw [List.filterMap_cons_some hq]
      have hstep : QualA.cappedAppend l (some e) =
          if l.length < 5 then l ++ [e] else l := rfl
      by_cases hlen : l.length < 5
      · rw [hstep, if_pos hlen, ih (l ++ [e]) (by simp; omega)]
        have h5 : 5 - l.length = (5 - (l ++ [e]).length) + 1 := by simp; omega
        rw [h5, List.take_succ_cons]
        simp [List.append_assoc]
      · rw [hstep, if_neg hlen, ih l hl]
        have h0 : 5 - l.length = 0 := by omega
        simp [h0]

lemma updateMagic_others (st : QualA.QualityStats) (p c : String) :
    (QualA.updateMagic st p c).deprecatedExamples = st.deprecatedExamples ∧
    (QualA.updateMagic st p c).nestingExamples = st.nestingExamples ∧
    QualA.complexitySum (QualA.updateMagic st p c) = QualA.complexitySum st := by
  unfold QualA.updateMagic QualA.complexitySum
  split_ifs <;> exact ⟨rfl, rfl, rfl⟩

lemma updateComplexity_others (st : QualA.QualityStats) (c : String) :
    (QualA.updateComplexity st c).magicExamples = st.magicExamples ∧
    (QualA.updateComplexity st c).deprecatedExamples = st.deprecatedExamples ∧
    (QualA.updateComplexity st c).nestingExamples = st.nestingExamples := by
  unfold QualA.updateComplexity
  split_ifs <;> exact ⟨rfl, rfl, rfl⟩

lemma updateComplexity_sum (st : QualA.QualityStats) (c : String) :
    QualA.complexitySum (QualA.updateComplexity st c) = QualA.complexitySum st + 1 := by
  unfold QualA.updateComplexity QualA.complexitySum
  split_ifs <;> simp <;> omega

lemma updateAge_others (st : QualA.QualityStats) (c : String) :
    (QualA.updateAge st c).magicExamples = st.magicExamples ∧
    (QualA.updateAge st c).deprecatedExamples = st.deprecatedExamples ∧
    (QualA.updateAge st c).nestingExamples = st.nestingExamples ∧
    QualA.complexitySum (QualA.updateAge st c) = QualA.complexitySum st := by
  unfold QualA.updateAge QualA.complexitySum
  cases QualA.oldestYearOf? c with
  | none => exact ⟨rfl, rfl, rfl, rfl⟩
  | some y =>
    dsimp only
    split_ifs <;> exact ⟨rfl, rfl, rfl, rfl⟩

lemma bumpTodo_others (st : QualA.QualityStats) (c : String) :
    (QualA.bumpTodo st c).magicExamples = st.magicExamples ∧
    (QualA.bumpTodo st c).deprecatedExamples = st.deprecatedExamples ∧
    (QualA.bumpTodo st c).nestingExamples = st.nestingExamples ∧
    QualA.complexitySum (QualA.bumpTodo st c) = QualA.complexitySum st := by
  unfold QualA.bumpTodo QualA.complexitySum
  split_ifs <;> exact ⟨rfl, rfl, rfl, rfl⟩

lemma bumpFixme_others (st : QualA.QualityStats) (c : String) :
    (QualA.bumpFixme st c).magicExamples = st.magicExamples ∧
    (QualA.bumpFixme st c).deprecatedExamples = st.deprecatedExamples ∧
    (QualA.bumpFixme st c).nestingExamples = st.nestingExamples ∧
    QualA.complexitySum (QualA.bumpFixme st c) = QualA.complexitySum st := by
  unfold QualA.bumpFixme QualA.complexitySum
  split_ifs <;> exact ⟨rfl, rfl, rfl, rfl⟩

lemma bumpHack_others (st : QualA.QualityStats) (c : String) :
    (QualA.bumpHack st c).magicExamples = st.magicExamples ∧
    (QualA.bumpHack st c).deprecatedExamples = st.deprecatedExamples ∧
    (QualA.bumpHack st c).nestingExamples = st.nestingExamples ∧
    QualA.complexitySum (QualA.bumpHack st c) = QualA.complexitySum st := by
  unfold QualA.bumpHack QualA.complexitySum
  split_ifs <;> exact ⟨rfl, rfl, rfl, rfl⟩

lemma bumpDeprecated_others (st : QualA.QualityStats) (p c : String) :
    (QualA.bumpDeprecated st p c).magicExamples = st.magicExamples ∧
    (QualA.bumpDeprecated st p c).nestingExamples = st.nestingExamples ∧
    QualA.complexitySum (QualA.bumpDeprecated st p c) = QualA.complexitySum st := by
  unfold QualA.bumpDeprecated QualA.complexitySum
  split_ifs <;> exact ⟨rfl, rfl, rfl⟩

lemma bumpLongFunctions_others (st : QualA.QualityStats) (c : String) :
    (QualA.bumpLongFunctions st c).magicExamples = st.magicExamples ∧
    (QualA.bumpLongFunctions st c).deprecatedExamples = st.deprecatedExamples ∧
    (QualA.bumpLongFunctions st c).nestingExamples = st.nestingExamples ∧
    QualA.complexitySum (QualA.bumpLongFunctions st c) = QualA.complexitySum st := by
  unfold QualA.bumpLongFunctions QualA.complexitySum
  split_ifs <;> exact ⟨rfl, rfl, rfl, rfl⟩

lemma bumpNesting_others (st : QualA.QualityStats) (p c : String) :
    (QualA.bumpNesting st p c).magicExamples = st.magicExamples ∧
    (QualA.bumpNesting st p c).deprecatedExamples = st.deprecatedExamples ∧
    QualA.complexitySum (QualA.bumpNesting st p c) = QualA.complexitySum st := by
  unfold QualA.bumpNesting QualA.complexitySum
  split_ifs <;> exact ⟨rfl, rfl, rfl⟩

lemma updateMagic_magicExamples (st : QualA.QualityStats) (p c : String) :
    (QualA.updateMagic st p c).magicExamples =
      QualA.cappedAppend st.magicExamples (QualA.magicQual (p, some c)) := by
  unfold QualA.updateMagic QualA.magicQual QualA.cappedAppend
  dsimp only
  split_ifs <;> rfl

lemma bumpDeprecated_deprecatedExamples (st : QualA.QualityStats) (p c : String) :
    (QualA.bumpDeprecated st p c).deprecatedExamples =
      QualA.cappedAppend st.deprecatedExamples (QualA.deprecatedQual (p, some c)) := by
  unfold QualA.bumpDeprecated QualA.deprecatedQual QualA.cappedAppend
  dsimp only
  split_ifs <;> rfl

lemma bumpNesting_nestingExamples (st : QualA.QualityStats) (p c : String) :
    (QualA.bumpNesting st p c).nestingExamples =
      QualA.cappedAppend st.nestingExamples (QualA.nestingQual (p, some c)) := by
  unfold QualA.bumpNesting QualA.nestingQual QualA.cappedAppend
  dsimp only
  split_ifs <;> rfl

lemma qualityStep_magicExamples (st : QualA.QualityStats) (f : String × Option String) :
    (QualA.qualityStep st f).magicExamples =
      QualA.cappedAppend st.magicExamples (QualA.magicQual f) := by
  obtain ⟨p, o⟩ := f
  cases o with
  | none => rfl
  | some c =>
    show (QualA.analyzeFileQ st p c).magicExamples = _
    unfold QualA.analyzeFileQ
    rw [(bumpNesting_others _ _ _).1, (bumpLongFunctions_others _ _).1,
      (bumpDeprecated_others _ _ _).1, (bumpHack_others _ _).1,
      (bumpFixme_others _ _).1, (bumpTodo_others _ _).1,
      (updateAge_others _ _).1, (updateComplexity_others _ _).1,
      updateMagic_magicExamples]

lemma qualityStep_deprecatedExamples (st : QualA.QualityStats) (f : String × Option String) :
    (QualA.qualityStep st f).deprecatedExamples =
      QualA.cappedAppend st.deprecatedExamples (QualA.deprecatedQual f) := by
  obtain ⟨p, o⟩ := f
  cases o with
  | none => rfl
  | some c =>
    show (QualA.analyzeFileQ st p c).deprecatedExamples = _
    unfold QualA.analyzeFileQ
    rw [(bumpNesting_others _ _ _).2.1, (bumpLongFunctions_others _ _).2.1,
      bumpDeprecated_deprecatedExamples, (bumpHack_others _ _).2.1,
      (bumpFixme_others _ _).2.1, (bumpTodo_others _ _).2.1,
      (updateAge_others _ _).2.1, (updateComplexity_others _ _).2.1,
      (updateMagic_others _ _ _).1]

lemma qualityStep_nestingExamples (st : QualA.QualityStats) (f : String × Option String) :
    (QualA.qualityStep st f).nestingExamples =
      QualA.cappedAppend st.nestingExamples (QualA.nestingQual f) := by
  obtain ⟨p, o⟩ := f
  cases o with
  | none => rfl
  | some c =>
    show (QualA.analyzeFileQ st p c).nestingExamples = _
    unfold QualA.analyzeFileQ
    rw [bumpNesting_nestingExamples, (bumpLongFunctions_others _ _).2.2.1,
      (bumpDeprecated_others _ _ _).2.1, (bumpHack_others _ _).2.2.1,
      (bumpFixme_others _ _).2.2.1, (bumpTodo_others _ _).2.2.1,
      (updateAge_others _ _).2.2.1, (updateComplexity_others _ _).2.2,
      (updateMagic_others _ _ _).2.1]

lemma qualityStep_complexitySum (st : QualA.QualityStats) (f : String × Option String) :
    QualA.complexitySum (QualA.qualityStep st f) =
      QualA.complexitySum st + (if f.2.isSome then 1 else 0) := by
  obtain ⟨p, o⟩ := f
  cases o with
  | none => rfl
  | some c =>
    show QualA.complexitySum (QualA.analyzeFileQ st p c) = _
    unfold QualA.analyzeFileQ
    rw [(bumpNesting_others _ _ _).2.2, (bumpLongFunctions_others _ _).2.2.2,
      (bumpDeprecated_others _ _ _).2.2, (bumpHack_others _ _).2.2.2,
      (bumpFixme_others _ _).2.2.2, (bumpTodo_others _ _).2.2.2,
      (updateAge_others _ _).2.2.2, updateComplexity_sum,
      (updateMagic_others _ _ _).2.2]
    rfl

lemma runFold_magicExamples :
    ∀ (files : List (String × Option String)) (st : QualA.QualityStats),
      (files.foldl QualA.qualityStep st).magicExamples =
        files.foldl (fun l f => QualA.cappedAppend l (QualA.magicQual f)) st.magicExamples := by
  intro files
  induction files with
  | nil => intro st; rfl
  | cons f fs ih =>
    intro st
    simp only [List.foldl_cons]
    rw [ih, qualityStep_magicExamples]

lemma runFold_deprecatedExamples :
    ∀ (files : List (String × Option String)) (st : QualA.QualityStats),
      (files.foldl QualA.qualityStep st).deprecatedExamples =
        files.foldl (fun l f => QualA.cappedAppend l (QualA.deprecatedQual f)) st.deprecatedExamples := by
  intro files
  induction files with
  | nil => intro st; rfl
  | cons f fs ih =>
    intro st
    simp only [List.foldl_cons]
    rw [ih, qualityStep_deprecatedExamples]

lemma runFold_nestingExamples :
    ∀ (files : List (String × Option String)) (st : QualA.QualityStats),
      (files.foldl QualA.qualityStep st).nestingExamples =
        files.foldl (fun l f => QualA.cappedAppend l (QualA.nestingQual f)) st.nestingExamples := by
  intro files
  induction files with
  | nil => intro st; rfl
  | cons f fs ih =>
    intro st
    simp only [List.foldl_cons]
    rw [ih, qualityStep_nestingExamples]

lemma runFold_complexitySum :
    ∀ (files : List (String × Option String)) (st : QualA.QualityStats),
      QualA.complexitySum (files.foldl QualA.qualityStep st) =
        QualA.complexitySum st + files.countP (fun f => f.2.isSome) := by
  intro files
  induction files with
  | nil => intro st; simp
  | cons f fs ih =>
    intro st
    simp only [List.foldl_cons]
    rw [ih, qualityStep_complexitySum, List.countP_cons]
    split_ifs <;> omega

/-!
## Claim theorems
-/

/-- Claim C1: for every analyzed file the category label is the pure,
deterministic image of the integer `quality_score` under the three-tier
map with inclusive lower bounds: `score ≥ 60 → well_documented`,
`25 ≤ score < 60 → partially_documented`, `score < 25 →
poorly_documented`; in particular 24 maps to poor, 25 and 59 to
partial, and 60 to well. -/
theorem claim_c1_category_thresholds :
    ∀ (content : String) (s : Nat),
      (DocA.analyzeFile content).category =
        DocA.categorize (DocA.analyzeFile content).qualityScore ∧
      (DocA.categorize s = "well_documented" ↔ 60 ≤ s) ∧
      (DocA.categorize s = "partially_documented" ↔ 25 ≤ s ∧ s < 60) ∧
      (DocA.categorize s = "poorly_documented" ↔ s < 25) ∧
      DocA.categorize 24 = "poorly_documented" ∧
      DocA.categorize 25 = "partially_documented" ∧
      DocA.categorize 59 = "partially_documented" ∧
      DocA.categorize 60 = "well_documented" := by
  intro content s
  refine ⟨rfl, ?_, ?_, ?_, by decide, by decide, by decide, by decide⟩ <;>
    (unfold DocA.categorize; split_ifs <;> simp_all <;> omega)

/-- The documentation ratio of `exStoplist` computes to 2: two
documented items over one stoplist-filtered total item. -/
lemma docRatio_exStoplist : (DocA.analyzeFile DocA.exStoplist).docRatio = 2 := by
  show DocA.docRatioOf DocA.exStoplist = 2
  unfold DocA.docRatioOf
  rw [show DocA.totalItemsOf DocA.exStoplist = 1 by decide,
    show DocA.documentedItemsOf DocA.exStoplist = 2 by decide]
  norm_num

/-- Claim C2 (counterexample): on the file `exStoplist` the
documented-item count is 2 while the stoplist-filtered total is 1, so
`documentation_ratio = 2 > 1` — the stoplist of line 79 is applied to
the `findall` list used for `total_items` but not to the `finditer`
loop that counts documented functions. -/
theorem claim_c2_counterexample :
    (DocA.analyzeFile DocA.exStoplist).documentedClasses +
      (DocA.analyzeFile DocA.exStoplist).documentedFunctions = 2 ∧
    (DocA.analyzeFile DocA.exStoplist).classes +
      (DocA.analyzeFile DocA.exStoplist).functions = 1 ∧
    (DocA.analyzeFile DocA.exStoplist).docRatio = 2 ∧
    ¬ (DocA.analyzeFile DocA.exStoplist).docRatio ≤ 1 := by
  refine ⟨by decide, by decide, docRatio_exStoplist, ?_⟩
  rw [docRatio_exStoplist]
  norm_num

/-- Claim C2 (amended): the stoplist filters the declaration-name list
used for `total_items`, but the documented-item count ranges over the
unfiltered signature matches; hence each documented count is bounded by
the number of unfiltered matches of its pattern, while
`documented_items` can exceed `total_items` and `documentation_ratio`
can exceed 1 (it is exactly 2 on `exStoplist`). -/
theorem claim_c2_amended :
    (∀ content : String,
      (DocA.analyzeFile content).documentedFunctions ≤ (DocA.fnMatches content).length ∧
      (DocA.analyzeFile content).documentedClasses ≤ (DocA.classMatches content).length) ∧
    (DocA.analyzeFile DocA.exStoplist).docRatio = 2 := by
  refine ⟨fun content => ⟨?_, ?_⟩, docRatio_exStoplist⟩
  · show DocA.documentedFunctionsOf content ≤ (DocA.fnMatches content).length
    exact List.length_filter_le _ _
  · show DocA.documentedClassesOf content ≤ (DocA.classMatches content).length
    exact List.length_filter_le _ _

/-- Claim C3 (counterexample): the literal `0xFF` is NOT excluded by
the conventional-constant filter — the filter list holds the exact
lowercase string `0xff`, and the comparison is case-sensitive, so
`0xFF` survives filtering. -/
theorem claim_c3_counterexample :
    QualA.filteredMagicOf "0xFF" = ["0xFF"] ∧ QualA.filteredMagicOf "0xFF" ≠ [] :=
  ⟨by decide, by decide⟩

/-- Claim C3 (amended): on comment-stripped text, `42` is never
flagged (too few digits); `12345` is flagged; the lowercase `0xff` is
excluded by the conventional-constant filter while `0xFF` (uppercase)
and `0xFE` are flagged, the filter being an exact case-sensitive string
comparison; `3.14159` is flagged while `3.14` is not; and a digit run
embedded in an identifier such as `v100x` is never flagged. -/
theorem claim_c3_amended :
    QualA.filteredMagicOf "42" = [] ∧
    QualA.filteredMagicOf "12345" = ["12345"] ∧
    QualA.filteredMagicOf "0xff" = [] ∧
    QualA.filteredMagicOf "0xFF" = ["0xFF"] ∧
    QualA.filteredMagicOf "0xFE" = ["0xFE"] ∧
    QualA.filteredMagicOf "3.14159" = ["3.14159"] ∧
    QualA.filteredMagicOf "3.14" = [] ∧
    QualA.filteredMagicOf "v100x" = [] := by
  refine ⟨by decide, by decide, by decide, by decide, by decide, by decide, by decide, by decide⟩

/-- Claim C4: after a full Documentation Classifier run the three
category partitions add up to `total_files`, which counts exactly the
successfully read files; a file whose read fails leaves the whole
aggregate untouched, so it appears in no category list and in no
counter. -/
theorem claim_c4_partition :
    ∀ files : List (Option String),
      (DocA.analyzeDirectory files).wellDocumented.length +
        (DocA.analyzeDirectory files).partiallyDocumented.length +
        (DocA.analyzeDirectory files).poorlyDocumented.length =
        (DocA.analyzeDirectory files).totalFiles ∧
      (DocA.analyzeDirectory files).totalFiles = files.countP (fun f => f.isSome) ∧
      (∀ st : DocA.DocRunStats, DocA.docFoldStep st none = st) := by
  intro files
  obtain ⟨h1, h2⟩ := docFold_inv files DocA.initDocStats
  refine ⟨?_, ?_, fun st => rfl⟩
  · show DocA.categoryTotal (files.foldl DocA.docFoldStep DocA.initDocStats) =
      (files.foldl DocA.docFoldStep DocA.initDocStats).totalFiles
    rw [h1, h2]
    simp [DocA.categoryTotal, DocA.initDocStats]
  · show (files.foldl DocA.docFoldStep DocA.initDocStats).totalFiles = _
    rw [h2]
    simp [DocA.initDocStats]

/-- The quality-score formula is bounded by 100: the ratio tiers are
mutually exclusive (at most +30) and each remaining bonus fires at most
once (+20, +20, +15, +15). -/
lemma qualityScore_le_100 (r : ℚ) (p q b d c : Nat) :
    DocA.qualityScore r p q b d c ≤ 100 := by
  unfold DocA.qualityScore
  split_ifs <;> norm_num

/-- Claim C5: for every analyzed file `quality_score` lies between 0
and 100 inclusive, with no explicit clamp in the formula — the tier
contributes at most 30 and the four bonuses at most 70. -/
theorem claim_c5_score_bounds :
    ∀ content : String,
      (DocA.analyzeFile content).qualityScore ≤ 100 ∧
      0 ≤ (DocA.analyzeFile content).qualityScore :=
  fun _ => ⟨qualityScore_le_100 _ _ _ _ _ _, Nat.zero_le _⟩

/-- Claim C6: complexity is the control-flow keyword count divided by
`max(lines/100, 1)` (Python's binary `max`, equal to the lattice
`max`); any 100-line file with exactly 16 keywords has complexity
exactly 16 and increments the very-complex counter, while any
1000-line file with 16 keywords has complexity exactly 8/5 = 1.6 and
increments the simple counter. -/
theorem claim_c6_complexity (c1 c2 c3 : String) (st : QualA.QualityStats)
    (h1 : QualA.controlKeywordCount c1 = 16) (h2 : QualA.linesOfCode c1 = 100)
    (h3 : QualA.controlKeywordCount c2 = 16) (h4 : QualA.linesOfCode c2 = 1000) :
    QualA.complexityOf c3 = (QualA.controlKeywordCount c3 : ℚ) /
      QualA.pymax ((QualA.linesOfCode c3 : ℚ) / 100) 1 ∧
    (∀ a b : ℚ, QualA.pymax a b = max a b) ∧
    QualA.complexityOf c1 = 16 ∧
    (QualA.updateComplexity st c1).veryComplex = st.veryComplex + 1 ∧
    QualA.complexityOf c2 = 8 / 5 ∧
    (QualA.updateComplexity st c2).simple = st.simple + 1 := by
  have hc1 : QualA.complexityOf c1 = 16 := by
    unfold QualA.complexityOf
    rw [h1, h2]
    norm_num [QualA.pymax]
  have hc2 : QualA.complexityOf c2 = 8 / 5 := by
    unfold QualA.complexityOf
    rw [h3, h4]
    norm_num [QualA.pymax]
  refine ⟨rfl, ?_, hc1, ?_, hc2, ?_⟩
  · intro a b
    unfold QualA.pymax
    rcases lt_or_ge a b with h | h
    · rw [if_pos h, max_eq_right h.le]
    · rw [if_neg (not_lt.mpr h), max_eq_left h]
  · unfold QualA.updateComplexity
    rw [hc1]
    norm_num
  · unfold QualA.updateComplexity
    rw [hc2]
    norm_num

/-- Witness for C6: `exComplex100` is a concrete 100-line file with 16
control-flow keywords and `exComplex1000` a concrete 1000-line file
with 16 keywords; the theorem applies to them with the stated
outcomes. -/
theorem claim_c6_witness :
    QualA.controlKeywordCount QualA.exComplex100 = 16 ∧
    QualA.linesOfCode QualA.exComplex100 = 100 ∧
    QualA.controlKeywordCount QualA.exComplex1000 = 16 ∧
    QualA.linesOfCode QualA.exComplex1000 = 1000 ∧
    QualA.complexityOf QualA.exComplex100 = 16 ∧
    (QualA.updateComplexity QualA.initStats QualA.exComplex100).veryComplex =
      QualA.initStats.veryComplex + 1 ∧
    QualA.complexityOf QualA.exComplex1000 = 8 / 5 ∧
    (QualA.updateComplexity QualA.initStats QualA.exComplex1000).simple =
      QualA.initStats.simple + 1 :=
  have h := claim_c6_complexity QualA.exComplex100 QualA.exComplex1000 "" QualA.initStats
    kw_exComplex100 loc_exComplex100 kw_exComplex1000 loc_exComplex1000
  ⟨kw_exComplex100, loc_exComplex100, kw_exComplex1000, loc_exComplex1000,
    h.2.2.1, h.2.2.2.1, h.2.2.2.2.1, h.2.2.2.2.2⟩

/-- Claim C7: whenever a file's total declaration count (classes plus
stoplist-filtered callables) is 0, `documentation_ratio` is 0 — the
guarded division is never taken. -/
theorem claim_c7_zero_items (content : String)
    (h : (DocA.analyzeFile content).classes + (DocA.analyzeFile content).functions = 0) :
    (DocA.analyzeFile content).docRatio = 0 := by
  show DocA.docRatioOf content = 0
  unfold DocA.docRatioOf
  have h0 : DocA.totalItemsOf content = 0 := h
  simp [h0]

/-- Witness for C7: the empty file has no declaration sites and ratio
0. -/
theorem claim_c7_witness :
    ((DocA.analyzeFile "").classes + (DocA.analyzeFile "").functions = 0) ∧
    (DocA.analyzeFile "").docRatio = 0 :=
  ⟨by decide, claim_c7_zero_items "" (by decide)⟩

/-- Claim C8: for every indicator family with an example list (magic
numbers, deprecated markers, deep nesting) and every run, the list is
exactly the first 5 qualifying files in encounter order — first-N-found
semantics — and therefore never exceeds 5 entries. -/
theorem claim_c8_example_caps :
    ∀ files : List (String × Option String),
      (QualA.runScanner files).magicExamples =
        (files.filterMap QualA.magicQual).take 5 ∧
      (QualA.runScanner files).magicExamples.length ≤ 5 ∧
      (QualA.runScanner files).deprecatedExamples =
        (files.filterMap QualA.deprecatedQual).take 5 ∧
      (QualA.runScanner files).deprecatedExamples.length ≤ 5 ∧
      (QualA.runScanner files).nestingExamples =
        (files.filterMap QualA.nestingQual).take 5 ∧
      (QualA.runScanner files).nestingExamples.length ≤ 5 := by
  intro files
  have hm : (QualA.runScanner files).magicExamples =
      (files.filterMap QualA.magicQual).take 5 := by
    show (files.foldl QualA.qualityStep QualA.initStats).magicExamples = _
    rw [runFold_magicExamples]
    simpa using cappedAppend_foldl QualA.magicQual files [] (by simp)
  have hd : (QualA.runScanner files).deprecatedExamples =
      (files.filterMap QualA.deprecatedQual).take 5 := by
    show (files.foldl QualA.qualityStep QualA.initStats).deprecatedExamples = _
    rw [runFold_deprecatedExamples]
    simpa using cappedAppend_foldl QualA.deprecatedQual files [] (by simp)
  have hn : (QualA.runScanner files).nestingExamples =
      (files.filterMap QualA.nestingQual).take 5 := by
    show (files.foldl QualA.qualityStep QualA.initStats).nestingExamples = _
    rw [runFold_nestingExamples]
    simpa using cappedAppend_foldl QualA.nestingQual files [] (by simp)
  refine ⟨hm, ?_, hd, ?_, hn, ?_⟩
  · rw [hm]; exact List.length_take_le _ _
  · rw [hd]; exact List.length_take_le _ _
  · rw [hn]; exact List.length_take_le _ _

/-- Claim C9: each successfully analyzed file increments exactly one of
the four complexity counters (the classification if/elif chain always
lands in one branch), so after any run their sum equals the number of
files analyzed in the second pass. -/
theorem claim_c9_complexity_partition :
    ∀ files : List (String × Option String),
      ((QualA.runScanner files).veryComplex + (QualA.runScanner files).complexFiles +
        (QualA.runScanner files).moderate + (QualA.runScanner files).simple =
        files.countP (fun f => f.2.isSome)) ∧
      (∀ (st : QualA.QualityStats) (c : String),
        QualA.updateComplexity st c = { st with veryComplex := st.veryComplex + 1 } ∨
        QualA.updateComplexity st c = { st with complexFiles := st.complexFiles + 1 } ∨
        QualA.updateComplexity st c = { st with moderate := st.moderate + 1 } ∨
        QualA.updateComplexity st c = { st with simple := st.simple + 1 }) := by
  intro files
  constructor
  · show QualA.complexitySum (files.foldl QualA.qualityStep QualA.initStats) = _
    rw [runFold_complexitySum]
    simp [QualA.complexitySum, QualA.initStats]
  · intro st c
    unfold QualA.updateComplexity
    split_ifs
    · exact Or.inl rfl
    · exact Or.inr (Or.inl rfl)
    · exact Or.inr (Or.inr (Or.inl rfl))
    · exact Or.inr (Or.inr (Or.inr rfl))

/-- Claim C10: on the empty file the Documentation Classifier completes
without dividing — the doc-to-code character bonus is guarded by
`code_chars > 0` (with zero counts and zero characters the formula is
identically 0 for every documentation-character count) — and the empty
file gets quality score 0 and category `poorly_documented`. -/
theorem claim_c10_empty_file :
    (DocA.analyzeFile "").qualityScore = 0 ∧
    (DocA.analyzeFile "").category = "poorly_documented" ∧
    (∀ docChars : Nat, DocA.qualityScore 0 0 0 0 docChars 0 = 0) := by
  have hr : DocA.docRatioOf "" = 0 := by
    unfold DocA.docRatioOf
    rw [show DocA.totalItemsOf "" = 0 by decide]
    norm_num
  have hs : (DocA.analyzeFile "").qualityScore = 0 := by
    show DocA.qualityScore (DocA.docRatioOf "") (DocA.paramCountOf "")
      (DocA.returnCountOf "") (DocA.briefCountOf "")
      (DocA.allDocsOf "").length "".length = 0
    rw [hr, show DocA.paramCountOf "" = 0 by decide,
      show DocA.returnCountOf "" = 0 by decide,
      show DocA.briefCountOf "" = 0 by decide]
    unfold DocA.qualityScore
    norm_num
  refine ⟨hs, ?_, ?_⟩
  · show DocA.categorize (DocA.analyzeFile "").qualityScore = _
    rw [hs]
    decide
  · intro d
    unfold DocA.qualityScore
    norm_num
